import Mathlib

/-!
Verification of the document registry and document context lifecycle of this
repository against its specification.

Sources embedded here:
* `packages/docregistry/src/registry.ts` — the `DocumentRegistry` class
  (`addWidgetFactory`, `getFileTypesForPath`, `Private.extname`) and the
  `DocumentRegistry.SaveState` type.
* `packages/docprovider/src/tokens.ts` — the `IDocumentProvider` interface
  (declaration only; its locking contract is modelled from the spec).
* The document `Context` class is not part of the source tree; its operations
  (`initialize`, `save`, `saveAs`, `revert`, checkpoints) are modelled from the
  spec, with behaviour pinned where the repository's own context tests
  (embedded in `registry.ts`) determine it.

JavaScript strings are embedded as `List Char` so that every operation is a
structural recursion the kernel can evaluate; `Str` abbreviates that type.
-/

/-- JavaScript strings are modelled as lists of characters. -/
abbrev Str : Type := List Char

/-- Carriage-return + line-feed, the Windows line ending "\r\n". -/
def crlf : Str := "\r\n".data

/-- The line feed character as a one-character string. -/
def lfStr : Str := "\n".data

/-- Replace every CRLF sequence by LF, leftmost first, non-overlapping: the
embedding of the JavaScript `content.replace(/\r\n/g, '\n')` used by the
Context on load/revert. -/
def normalizeLineEndings : Str → Str
  | [] => []
  | '\r' :: '\n' :: rest => '\n' :: normalizeLineEndings rest
  | c :: rest => c :: normalizeLineEndings rest

/-- Whether the string contains a CRLF sequence: the embedding of the
JavaScript `content.indexOf('\r\n') !== -1`. -/
def hasCRLF : Str → Bool
  | [] => false
  | '\r' :: '\n' :: _ => true
  | _ :: rest => hasCRLF rest

/-- Replace every LF by the given line ending: the embedding of the JavaScript
`content.replace(/\n/g, lineEnding)` applied on the save path. -/
def expandLF (le : Str) : Str → Str
  | [] => []
  | '\n' :: rest => le ++ expandLF le rest
  | c :: rest => c :: expandLF le rest

/-- Lowercase a string character by character, embedding
`String.prototype.toLowerCase` (ASCII range, which covers the registry's
file-type names and extensions). -/
def toLowerStr (s : Str) : Str := s.map Char.toLower

/-- Split a string at every occurrence of the separator character, the
embedding of `String.prototype.split` with a one-character separator: the
JavaScript `''.split('.')` is `['']`, i.e. `[[]]`. -/
def splitOnChar (sep : Char) : Str → List Str
  | [] => [[]]
  | c :: rest =>
    match splitOnChar sep rest with
    | [] => [[]]
    | h :: t => if c = sep then [] :: h :: t else (c :: h) :: t

/-- Join a list of strings with the separator character between consecutive
elements, the embedding of `Array.prototype.join`. -/
def joinSep (sep : Char) : List Str → Str
  | [] => []
  | [x] => x
  | x :: y :: t => x ++ sep :: joinSep sep (y :: t)

/-- Posix basename as used by `PathExt.basename`: trailing slashes are
ignored and the part after the last remaining slash is returned. -/
def basename (p : Str) : Str :=
  ((p.reverse.dropWhile (fun c => c = '/')).takeWhile (fun c => c ≠ '/')).reverse

/-- Association-list lookup, embedding a JavaScript object used as a string
keyed dictionary (`obj[k]`, first binding wins — keys are unique in the
source's objects). -/
def lookupEntry {α : Type} (k : Str) : List (Str × α) → Option α
  | [] => none
  | (k', v) :: rest => if k' = k then some v else lookupEntry k rest

/-- Association-list update, embedding the JavaScript assignment `obj[k] = v`:
an existing binding is overwritten in place, a new key is appended. -/
def putEntry {α : Type} (k : Str) (v : α) : List (Str × α) → List (Str × α)
  | [] => [(k, v)]
  | (k', v') :: rest =>
    if k' = k then (k, v) :: rest else (k', v') :: putEntry k v rest

/-- Association-list deletion, embedding the JavaScript `delete obj[k]`. -/
def removeEntry {α : Type} (k : Str) : List (Str × α) → List (Str × α)
  | [] => []
  | (k', v') :: rest =>
    if k' = k then rest else (k', v') :: removeEntry k rest

/-- The `DocumentRegistry.SaveState` union type of `registry.ts`:
`'started' | 'failed' | 'completed' | 'completed-manual'`. -/
inductive SaveState : Type where
  | started : SaveState
  | failed : SaveState
  | completed : SaveState
  | completedManual : SaveState
deriving DecidableEq, Fintype, Repr

/-- The string literal each `SaveState` alternative stands for in the union
type of `registry.ts`. -/
def SaveState.toStr : SaveState → String
  | .started => "started"
  | .failed => "failed"
  | .completed => "completed"
  | .completedManual => "completed-manual"

/-- A file type record of the registry (`DocumentRegistry.IFileType`),
restricted to the fields `getFileTypesForPath` reads: the name, the
extension list, and the optional file-name pattern.  Regular-expression
matching (`name.match(ft.pattern)`) is abstracted as a boolean predicate on
the file name. -/
structure IFileType : Type where
  name : Str
  extensions : List Str
  pattern : Option (Str → Bool)

/-- Whether a file type's pattern matches the given name: the embedding of
`!!(ft.pattern && name.match(ft.pattern) !== null)`. -/
def IFileType.patternMatches (ft : IFileType) (name : Str) : Bool :=
  match ft.pattern with
  | some m => m name
  | none => false

/-- The `Private.extname` helper of `registry.ts`: split the basename on dots,
drop the part before the first dot, rejoin with dots, prefix a dot, and
lowercase — so dotted (compound) extensions are kept whole. -/
def extname (path : Str) : Str :=
  toLowerStr ('.' :: joinSep '.' ((splitOnChar '.' (basename path)).drop 1))

/-- The `while (ext.length > 1)` loop of `getFileTypesForPath`, carried out on
the dot-separated segments of the current extension (the loop's `ext` equals
`'.' :: joinSep '.' parts`, and the JavaScript step
`ext = '.' + ext.split('.').slice(2).join('.')` drops the first segment,
because `ext.split('.')` is `[] :: parts` by the split/join round trip). -/
def extMatchLoop (fileTypes : List IFileType) : List Str → List IFileType
  | [] => []
  | p :: rest =>
    let ext := '.' :: joinSep '.' (p :: rest)
    if 1 < ext.length then
      (fileTypes.find? (fun ft => ft.extensions.contains ext)).toList ++
        extMatchLoop fileTypes rest
    else []

/-- The `DocumentRegistry.getFileTypesForPath` method of `registry.ts`: first
the first registered file type whose pattern matches the basename, then, for
each successively shorter compound extension, the first registered file type
listing that extension. -/
def getFileTypesForPath (fileTypes : List IFileType) (path : Str) :
    List IFileType :=
  let name := basename path
  (fileTypes.find? (fun ft => ft.patternMatches name)).toList ++
    extMatchLoop fileTypes ((splitOnChar '.' (extname name)).drop 1)

/-- The chain of compound extensions of an already-split extension, longest
first, keeping only those longer than a bare dot — the order in which the
claim says extensions are tried. -/
def extChain (parts : List Str) : List Str :=
  (((List.range parts.length).map
      (fun i => '.' :: joinSep '.' (parts.drop i))).filter
    (fun e => 1 < e.length))

/-- The claim's description of `getFileTypesForPath`, stated independently of
the source's loop: the pattern hit (if any) followed by, for each compound
extension of the basename from longest to shortest, the first registered file
type listing that extension. -/
def getFileTypesForPathSpec (fileTypes : List IFileType) (path : Str) :
    List IFileType :=
  let name := basename path
  (fileTypes.find? (fun ft => ft.patternMatches name)).toList ++
    (extChain ((splitOnChar '.' (extname name)).drop 1)).filterMap
      (fun e => fileTypes.find? (fun ft => ft.extensions.contains e))

/-- The kind of change reported on the registry's `changed` signal, as in
`DocumentRegistry.IChangedArgs` of `registry.ts` (only widget-factory events
arise in the code embedded here). -/
structure ChangedArgs : Type where
  type : String
  name : Str
  change : String
deriving DecidableEq, Repr

/-- A widget factory as consumed by `addWidgetFactory`: its name and the three
file-type lists it registers itself with (`factory.defaultFor || []` and
`factory.defaultRendered || []` are embedded as plain lists, absence being
the empty list). -/
structure WidgetFactoryOpts : Type where
  name : Str
  fileTypes : List Str
  defaultFor : List Str
  defaultRendered : List Str
deriving DecidableEq, Repr

/-- The parts of the `DocumentRegistry` state that `addWidgetFactory` and the
disposable it returns read or write. -/
structure RegistryState : Type where
  widgetFactories : List (Str × WidgetFactoryOpts)
  defaultWidgetFactory : Str
  defaultWidgetFactories : List (Str × Str)
  defaultRenderedWidgetFactories : List (Str × Str)
  widgetFactoriesForFileType : List (Str × List Str)
  defaultWidgetFactoryOverrides : List (Str × Str)
deriving DecidableEq, Repr

/-- The error message thrown by `addWidgetFactory` for an invalid name. -/
def invalidFactoryNameMsg : String := "Invalid factory name"

/-- The name under which a `'*'` entry registers a global default. -/
def starStr : Str := "*".data

/-- The reserved factory name `'default'`. -/
def defaultStr : Str := "default".data

/-- The `'widgetFactory'` tag of a registry `changed` event. -/
def widgetFactoryTag : String := "widgetFactory"

/-- The `'added'` change tag. -/
def addedTag : String := "added"

/-- The `'removed'` change tag. -/
def removedTag : String := "removed"

/-- The body of the disposable returned by `addWidgetFactory` on a fresh
registration (`registry.ts` lines 176–207): it deletes the factory, clears
any default slots pointing at it, removes it from every file-type list
(dropping lists that become empty), clears overrides pointing at it, and
emits a `removed` event. -/
def disposeWidgetFactory (name : Str) (s : RegistryState) :
    RegistryState × List ChangedArgs :=
  let wf := removeEntry name s.widgetFactories
  let dwf := if s.defaultWidgetFactory = name then [] else s.defaultWidgetFactory
  let dwfs := s.defaultWidgetFactories.filter (fun (e : Str × Str) => !(e.2 == name))
  let drwfs := s.defaultRenderedWidgetFactories.filter (fun (e : Str × Str) => !(e.2 == name))
  let erased := s.widgetFactoriesForFileType.map (fun (e : Str × List Str) => (e.1, e.2.erase name))
  let wfft := erased.filter (fun (e : Str × List Str) => !e.2.isEmpty)
  let ovr := s.defaultWidgetFactoryOverrides.filter (fun (e : Str × Str) => !(e.2 == name))
  ({ widgetFactories := wf, defaultWidgetFactory := dwf,
     defaultWidgetFactories := dwfs, defaultRenderedWidgetFactories := drwfs,
     widgetFactoriesForFileType := wfft, defaultWidgetFactoryOverrides := ovr },
   [{ type := widgetFactoryTag, name := name, change := removedTag }])

/-- One step of the `factory.defaultFor` loop of `addWidgetFactory`: skip file
types the factory cannot open, register `'*'` as the global default, and any
other file type in the per-type default table. -/
def addDefaultForStep (name : Str) (factory : WidgetFactoryOpts)
    (acc : RegistryState) (ft : Str) : RegistryState :=
  if !(factory.fileTypes.contains ft) then acc
  else if ft = starStr then { acc with defaultWidgetFactory := name }
  else
    let m := putEntry ft name acc.defaultWidgetFactories
    { acc with defaultWidgetFactories := m }

/-- One step of the `factory.defaultRendered` loop of `addWidgetFactory`. -/
def addDefaultRenderedStep (name : Str) (factory : WidgetFactoryOpts)
    (acc : RegistryState) (ft : Str) : RegistryState :=
  if !(factory.fileTypes.contains ft) then acc
  else
    let m := putEntry ft name acc.defaultRenderedWidgetFactories
    { acc with defaultRenderedWidgetFactories := m }

/-- One step of the `factory.fileTypes` loop of `addWidgetFactory`: push the
factory's name onto the (possibly fresh) list for the file type. -/
def addFileTypeStep (name : Str) (acc : RegistryState) (ft : Str) :
    RegistryState :=
  let old := (lookupEntry ft acc.widgetFactoriesForFileType).getD []
  let m := putEntry ft (old ++ [name]) acc.widgetFactoriesForFileType
  { acc with widgetFactoriesForFileType := m }

/-- The `DocumentRegistry.addWidgetFactory` method of `registry.ts`: it throws
on an empty or `'default'` lowercased name; on a duplicate lowercased name it
warns and returns a no-op disposable without touching any state or emitting
any event; otherwise it registers the factory, fills the default and
file-type tables, emits an `added` event, and returns the disposable that
unregisters it.  The result carries the new state, the emitted events, and
the disposable as a state transformer. -/
def addWidgetFactory (st : RegistryState) (factory : WidgetFactoryOpts) :
    Except String
      (RegistryState × List ChangedArgs ×
        (RegistryState → RegistryState × List ChangedArgs)) :=
  let name := toLowerStr factory.name
  if name = [] ∨ name = defaultStr then .error invalidFactoryNameMsg
  else if (lookupEntry name st.widgetFactories).isSome then
    .ok (st, [], fun s => (s, []))
  else
    let st1 := { st with widgetFactories := putEntry name factory st.widgetFactories }
    let st2 := factory.defaultFor.foldl (addDefaultForStep name factory) st1
    let st3 := factory.defaultRendered.foldl (addDefaultRenderedStep name factory) st2
    let st4 := factory.fileTypes.foldl (addFileTypeStep name) st3
    .ok (st4,
      [{ type := widgetFactoryTag, name := name, change := addedTag }],
      disposeWidgetFactory name)

/-- The storage error message for a permission failure, as observed by the
repository's failing-save test (`'Invalid response: 403 Forbidden'`). -/
def forbiddenMsg : String := "Invalid response: 403 Forbidden"

/-- The error message for fetching a missing path. -/
def notFoundMsg : String := "No such file"

/-- The error for a checkpoint id the gateway does not know. -/
def noCheckpointMsg : String := "No such checkpoint"

/-- Modelled from the spec: a checkpoint held by the Storage Gateway — an
opaque id assigned by the gateway together with the snapshot of the stored
content taken when the checkpoint was created (§3 Checkpoint, §6 Storage
Gateway). -/
structure Checkpoint : Type where
  id : Nat
  content : Str
deriving DecidableEq, Repr

/-- Modelled from the spec: the Storage Gateway (§6), an asynchronous
path-addressed store with save/get and checkpoint primitives.  Paths listed
in `readonlyPaths` reject writes with a 403, which is how the tests simulate
a failing save (`path: 'readonly.txt'`). -/
structure Storage : Type where
  files : List (Str × Str)
  readonlyPaths : List Str
  checkpoints : List (Str × Checkpoint)
  nextCheckpointId : Nat
deriving Repr

/-- Modelled from the spec: fetch the stored content at a path. -/
def Storage.get (st : Storage) (path : Str) : Option Str :=
  lookupEntry path st.files

/-- Modelled from the spec: write content at a path; a read-only path rejects
the write with a 403 error and leaves the store untouched. -/
def Storage.save (st : Storage) (path content : Str) : Except String Storage :=
  if st.readonlyPaths.contains path then .error forbiddenMsg
  else .ok { st with files := putEntry path content st.files }

/-- Modelled from the spec: create a checkpoint of the current content stored
at the path, under a fresh gateway-assigned id (§4.1: a thin pass-through;
the gateway snapshots the remote content, not the in-memory Model). -/
def Storage.createCheckpoint (st : Storage) (path : Str) :
    Except String (Nat × Storage) :=
  match st.get path with
  | none => .error notFoundMsg
  | some c =>
    .ok (st.nextCheckpointId,
      { st with
        checkpoints := (path, { id := st.nextCheckpointId, content := c }) :: st.checkpoints,
        nextCheckpointId := st.nextCheckpointId + 1 })

/-- Modelled from the spec: restore the stored content at the path from the
identified checkpoint; only the remote file is touched. -/
def Storage.restoreCheckpoint (st : Storage) (path : Str) (id : Nat) :
    Except String Storage :=
  match st.checkpoints.find? (fun e => e.1 == path && e.2.id == id) with
  | none => .error noCheckpointMsg
  | some e => .ok { st with files := putEntry path e.2.content st.files }

/-- Modelled from the spec: the Context's last-known snapshot of remote
metadata (`contentsModel`); only the path is interpreted by the claims
(`contentsModel.path == path`). -/
structure ContentsModel : Type where
  path : Str
deriving DecidableEq, Repr

/-- Modelled from the spec: the document Context's local state (§3): current
path, the Model's serialized content, the Model's dirty flag, the last-known
remote metadata (null until the first successful populate or save), the
one-way readiness flag, and the line ending detected on the last load/revert
(the repository's save tests pin that a CRLF file reverts to LF in memory
and saves back as CRLF, so the Context remembers the detected line ending
and restores it on save). -/
structure Context : Type where
  path : Str
  modelContent : Str
  dirty : Bool
  contentsModel : Option ContentsModel
  isReady : Bool
  lineEnding : Option Str
deriving Repr

/-- Modelled from the spec: a freshly constructed Context bound to a path,
with an empty Model, no metadata, and not ready. -/
def Context.create (path : Str) : Context :=
  { path := path, modelContent := [], dirty := false, contentsModel := none,
    isReady := false, lineEnding := none }

/-- Modelled from the spec: the Model's `fromString` as invoked by a caller —
it replaces the serialized content and marks the Model dirty. -/
def Context.fromString (ctx : Context) (s : Str) : Context :=
  { ctx with modelContent := s, dirty := true }

/-- The outcome of one asynchronous Context operation: the updated Context and
storage, the `saveState` events emitted in order, and the error the awaited
operation rejects with, if any. -/
structure OpOutcome : Type where
  ctx : Context
  storage : Storage
  events : List SaveState
  error : Option String
deriving Repr

/-- Modelled from the spec: the content `save` hands to the Storage Gateway —
the Model's serialized content with LF expanded back to the line ending
detected on the last load/revert (the repository's save tests pin this
restoration). -/
def Context.saveContent (ctx : Context) : Str :=
  match ctx.lineEnding with
  | some le => expandLF le ctx.modelContent
  | none => ctx.modelContent

/-- Modelled from the spec: `save(manual)` (§4.1) — emit `started`, write the
Model's content (with the remembered line ending restored) at the current
path, then emit exactly one terminal state: `completed-manual` for a manual
save, `completed` otherwise, or `failed` on a storage error, in which case
the error is surfaced and the metadata and dirty flag are left untouched. -/
def Context.save (ctx : Context) (st : Storage) (manual : Bool) : OpOutcome :=
  match st.save ctx.path ctx.saveContent with
  | .error e =>
    { ctx := ctx, storage := st, events := [.started, .failed], error := some e }
  | .ok st2 =>
    { ctx := { ctx with dirty := false, contentsModel := some { path := ctx.path } },
      storage := st2,
      events := [.started, if manual then .completedManual else .completed],
      error := none }

/-- Modelled from the spec: `revert()` (§4.1) — fetch the remote content,
convert every CRLF sequence to LF before handing it to the Model
deserializer, remember whether CRLF was detected so a later save can restore
it, clear the dirty flag, and refresh the metadata snapshot. -/
def Context.revert (ctx : Context) (st : Storage) : OpOutcome :=
  match st.get ctx.path with
  | none =>
    { ctx := ctx, storage := st, events := [], error := some notFoundMsg }
  | some c =>
    { ctx := { ctx with
        modelContent := normalizeLineEndings c,
        dirty := false,
        contentsModel := some { path := ctx.path },
        lineEnding := if hasCRLF c then some crlf else none },
      storage := st, events := [], error := none }

/-- Modelled from the spec: `initialize(isNew)` (§4.1) — for a new document
perform the initial save of the in-memory Model, for an existing one
populate the Model from storage; on success the Context becomes ready, on
failure it stays non-ready and the error is surfaced to the caller. -/
def Context.initDoc (ctx : Context) (st : Storage) (isNew : Bool) : OpOutcome :=
  let r := if isNew then ctx.save st false else ctx.revert st
  match r.error with
  | some _ => r
  | none => { r with ctx := { r.ctx with isReady := true } }

/-- Modelled from the spec: the terminal outcomes of the Conflict/Rename
Policy on a destination collision (§4.3). -/
inductive ConflictResolution : Type where
  | overwrite : ConflictResolution
  | cancel : ConflictResolution
deriving DecidableEq, Repr

/-- Modelled from the spec: `saveAs()` (§4.1) with the policy's resolved
destination and collision outcome supplied as inputs.  A destination equal
to the current path degenerates to a plain manual save; a colliding
destination resolved with `cancel` is a no-op that leaves the path and the
store untouched; otherwise the Context adopts the new path and performs a
manual save there (the repository's saveAs test pins that the file at the
old path is left in place). -/
def Context.saveAs (ctx : Context) (st : Storage) (newPath : Str)
    (resolution : ConflictResolution) : OpOutcome :=
  if newPath = ctx.path then ctx.save st true
  else
    match st.get newPath, resolution with
    | some _, .cancel =>
      { ctx := ctx, storage := st, events := [], error := none }
    | _, _ =>
      Context.save { ctx with path := newPath } st true

/-- Modelled from the spec: `createCheckpoint()` (§4.1), a thin pass-through
to the Storage Gateway keyed by the current path; the Context itself is
untouched. -/
def Context.createCheckpoint (ctx : Context) (st : Storage) :
    Except String (Nat × Context × Storage) :=
  (st.createCheckpoint ctx.path).map (fun r => (r.1, ctx, r.2))

/-- Modelled from the spec: `restoreCheckpoint(id)` (§4.1), a thin
pass-through to the Storage Gateway keyed by the current path; only remote
state is mutated and the in-memory Model is not updated. -/
def Context.restoreCheckpoint (ctx : Context) (st : Storage) (id : Nat) :
    Except String (Context × Storage) :=
  (st.restoreCheckpoint ctx.path id).map (fun st2 => (ctx, st2))

/-- Modelled from the spec: the state of a collaborative Document Provider
(§4.2) — the lock tokens currently granted and unreleased, and the counter
producing fresh opaque integer tokens. -/
structure DocProvider : Type where
  liveTokens : List Nat
  nextLock : Nat
deriving DecidableEq, Repr

/-- Modelled from the spec: a freshly constructed provider with no
outstanding lock. -/
def DocProvider.init : DocProvider :=
  { liveTokens := [], nextLock := 0 }

/-- Modelled from the spec: `acquireLock()` (§4.2) — grants a fresh token
only when no token is outstanding; while a token is unreleased a second call
suspends or fails (`none`), and in particular never hands out a second live
token. -/
def DocProvider.acquireLock (p : DocProvider) : Option (Nat × DocProvider) :=
  match p.liveTokens with
  | [] => some (p.nextLock,
      { liveTokens := [p.nextLock], nextLock := p.nextLock + 1 })
  | _ :: _ => none

/-- Modelled from the spec: `releaseLock(token)` (§4.2) — releases a
previously granted token; an unrecognized token is a no-op. -/
def DocProvider.releaseLock (p : DocProvider) (tok : Nat) : DocProvider :=
  { p with liveTokens := p.liveTokens.erase tok }

/-- A call a client can make against a provider, for stating trace
properties of the lock discipline. -/
inductive ProviderOp : Type where
  | acquire : ProviderOp
  | release : Nat → ProviderOp
deriving DecidableEq, Repr

/-- Execute one provider call: a blocked or failed `acquireLock` leaves the
provider unchanged (no token is granted). -/
def DocProvider.step (p : DocProvider) : ProviderOp → DocProvider
  | .acquire =>
    match p.acquireLock with
    | some r => r.2
    | none => p
  | .release tok => p.releaseLock tok

/-- Execute a sequence of provider calls from the given state. -/
def DocProvider.run (p : DocProvider) (ops : List ProviderOp) : DocProvider :=
  ops.foldl DocProvider.step p

/-- Concrete empty storage for the C2 scenario. -/
def c2St0 : Storage :=
  { files := [], readonlyPaths := [], checkpoints := [], nextCheckpointId := 0 }

/-- The C2 scenario after `initialize(true)` of a fresh context. -/
def c2Init : OpOutcome :=
  Context.initDoc (Context.create ("p.txt".data)) c2St0 true

/-- The C2 scenario after CRLF content is saved to storage out of band. -/
def c2Stored : Storage :=
  match Storage.save c2Init.storage ("p.txt".data) ("foo\r\nbar".data) with
  | .ok st => st
  | .error _ => c2Init.storage

/-- The C2 scenario after the context reverts to the CRLF storage content. -/
def c2Reverted : OpOutcome :=
  Context.revert c2Init.ctx c2Stored

/-- Concrete context for the C3 witness. -/
def c3Ctx : Context := Context.create ("a.txt".data)

/-- Concrete storage for the C3 witness. -/
def c3St : Storage :=
  { files := [], readonlyPaths := [], checkpoints := [], nextCheckpointId := 0 }

/-- Concrete read-only storage for the C4 witness, matching the repository's
failing-save test (`path: 'readonly.txt'`). -/
def c4St : Storage :=
  { files := [], readonlyPaths := [("readonly.txt".data)], checkpoints := [],
    nextCheckpointId := 0 }

/-- Concrete context on the read-only path for the C4 witness. -/
def c4Ctx : Context := Context.create ("readonly.txt".data)

/-- Concrete context for the successful branch of the C5 witness. -/
def c5CtxA : Context := Context.create ("a.txt".data)

/-- Concrete storage for the successful branch of the C5 witness. -/
def c5StA : Storage :=
  { files := [], readonlyPaths := [], checkpoints := [], nextCheckpointId := 0 }

/-- Concrete context for the failing branch of the C5 witness. -/
def c5CtxB : Context := Context.create ("ro.txt".data)

/-- Concrete read-only storage for the failing branch of the C5 witness. -/
def c5StB : Storage :=
  { files := [], readonlyPaths := [("ro.txt".data)], checkpoints := [],
    nextCheckpointId := 0 }

/-- The C6 counterexample scenario after `initialize(true)` of a fresh
context (the initial save stores the empty Model content). -/
def c6Init : OpOutcome :=
  Context.initDoc (Context.create ("file.txt".data))
    { files := [], readonlyPaths := [], checkpoints := [], nextCheckpointId := 0 }
    true

/-- The C6 counterexample context: the Model is edited to `"bar"` but not
saved, so the remote file still holds the old content when the checkpoint is
created. -/
def c6Ctx2 : Context := c6Init.ctx.fromString ("bar".data)

/-- Concrete saved context for the C6 witness, mirroring the repository's
restore-checkpoint test: the Model content `"bar"` has been saved. -/
def c6WCtx : Context :=
  { path := ("test.txt".data), modelContent := ("bar".data), dirty := false,
    contentsModel := some { path := ("test.txt".data) }, isReady := true,
    lineEnding := none }

/-- Concrete storage for the C6 witness, holding the saved `"bar"`. -/
def c6WSt : Storage :=
  { files := [(("test.txt".data), ("bar".data))], readonlyPaths := [],
    checkpoints := [], nextCheckpointId := 0 }

/-- Concrete context for the C7 witness. -/
def c7Ctx : Context := Context.create ("old.txt".data)

/-- Concrete storage for the C7 witness: the destination already exists. -/
def c7St : Storage :=
  { files := [(("new.txt".data), ("foo".data))], readonlyPaths := [],
    checkpoints := [], nextCheckpointId := 0 }

/-- Concrete factory for the C10 witness. -/
def c10Factory : WidgetFactoryOpts :=
  { name := ("Foo".data), fileTypes := [], defaultFor := [], defaultRendered := [] }

/-- Concrete registry for the C10 witness, already holding a factory
registered under the lowercased name `foo`. -/
def c10St : RegistryState :=
  { widgetFactories := [(("foo".data), c10Factory)], defaultWidgetFactory := [],
    defaultWidgetFactories := [], defaultRenderedWidgetFactories := [],
    widgetFactoriesForFileType := [], defaultWidgetFactoryOverrides := [] }

/-- Looking a key up right after writing it yields the written value. -/
theorem lookupEntry_putEntry {α : Type} (k : Str) (v : α) (l : List (Str × α)) :
    lookupEntry k (putEntry k v l) = some v := by
  induction l with
  | nil => simp [putEntry, lookupEntry]
  | cons e rest ih =>
    by_cases h : e.1 = k
    · simp [putEntry, lookupEntry, h]
    · simp [putEntry, lookupEntry, h, ih]

/-- C1 counterexample: the claim lists `idle` among the values of the
`saveState` notification type, but no alternative of the source's
`DocumentRegistry.SaveState` union stands for the string `idle`. -/
theorem saveState_idle_not_a_value :
    ¬ ∃ s : SaveState, s.toStr = "idle" := by decide

/-- C1 (amended): the `saveState` notification type ranges over exactly the
four values `started`, `failed`, `completed` and `completed-manual`; every
value of the type is one of these four and each of the four is attained. -/
theorem saveState_exactly_four :
    ([SaveState.started, SaveState.failed, SaveState.completed,
        SaveState.completedManual].map SaveState.toStr
      = ["started", "failed", "completed", "completed-manual"]) ∧
    (∀ s : SaveState,
      s ∈ [SaveState.started, SaveState.failed, SaveState.completed,
        SaveState.completedManual]) := by decide

/-- C2 counterexample: after reverting storage content `"foo\r\nbar"` the
Model serializes to `"foo\nbar"`, yet the next `save()` writes
`"foo\r\nbar"` back to storage — the bytes written are not the serializer's
output, so the claimed no-normalization-on-save is false. -/
theorem save_no_normalization_cex :
    c2Reverted.ctx.modelContent = ("foo\nbar".data) ∧
    (Context.save c2Reverted.ctx c2Reverted.storage false).storage.get ("p.txt".data)
      = some ("foo\r\nbar".data) ∧
    ("foo\r\nbar".data : Str) ≠ ("foo\nbar".data) := by decide

/-- C2 (amended): `save()` writes the Model's serialized content with each LF
expanded back to the line ending detected on the last revert; in particular,
after reverting storage content that contained CRLF, a subsequent `save()`
stores the LF-normalized Model content with CRLF restored, not the Model's
LF content unchanged. -/
theorem save_restores_detected_line_ending (ctx : Context) (st : Storage)
    (s : Str) (manual : Bool)
    (hget : st.get ctx.path = some s)
    (hcrlf : hasCRLF s = true)
    (hro : st.readonlyPaths.contains ctx.path = false) :
    ((ctx.revert st).ctx).modelContent = normalizeLineEndings s ∧
    (Context.save (ctx.revert st).ctx (ctx.revert st).storage manual).error = none ∧
    (Context.save (ctx.revert st).ctx (ctx.revert st).storage manual).storage.get ctx.path
      = some (expandLF crlf (normalizeLineEndings s)) := by
  have hget2 : lookupEntry ctx.path st.files = some s := hget
  have hro2 : ctx.path ∉ st.readonlyPaths := by simpa using hro
  simp [Context.revert, hget2, hcrlf, Context.save, Context.saveContent,
    Storage.save, hro2, Storage.get, lookupEntry_putEntry]

/-- C2 witness: the amended theorem applied to the concrete CRLF scenario of
the repository's save test. -/
theorem save_restores_detected_line_ending_witness :
    (Context.revert c2Init.ctx c2Stored).ctx.modelContent
      = normalizeLineEndings ("foo\r\nbar".data) ∧
    (Context.save (Context.revert c2Init.ctx c2Stored).ctx
        (Context.revert c2Init.ctx c2Stored).storage false).error = none ∧
    (Context.save (Context.revert c2Init.ctx c2Stored).ctx
        (Context.revert c2Init.ctx c2Stored).storage false).storage.get c2Init.ctx.path
      = some (expandLF crlf (normalizeLineEndings ("foo\r\nbar".data))) := by
  exact save_restores_detected_line_ending c2Init.ctx c2Stored
    ("foo\r\nbar".data) false (by decide) (by decide) (by decide)

/-- C3: for any content saved to storage at the context's path, a following
`revert()` succeeds and hands the Model the remote content with every CRLF
sequence converted to LF, so the Model's serialized content equals the saved
content LF-normalized. -/
theorem revert_after_save_normalizes (ctx : Context) (st : Storage) (s : Str)
    (hro : st.readonlyPaths.contains ctx.path = false) :
    ∃ st2, st.save ctx.path s = .ok st2 ∧
      (ctx.revert st2).error = none ∧
      ((ctx.revert st2).ctx).modelContent = normalizeLineEndings s := by
  have hro2 : ctx.path ∉ st.readonlyPaths := by simpa using hro
  refine ⟨{ st with files := putEntry ctx.path s st.files }, ?_, ?_, ?_⟩
  · simp [Storage.save, hro2]
  · simp [Context.revert, Storage.get, lookupEntry_putEntry]
  · simp [Context.revert, Storage.get, lookupEntry_putEntry]

/-- C3 witness: saving `"foo\r\nbar"` and reverting yields in-memory content
normalized to LF, on a concrete context and storage. -/
theorem revert_after_save_normalizes_witness :
    ∃ st2, c3St.save c3Ctx.path ("foo\r\nbar".data) = .ok st2 ∧
      (c3Ctx.revert st2).error = none ∧
      ((c3Ctx.revert st2).ctx).modelContent
        = normalizeLineEndings ("foo\r\nbar".data) := by
  exact revert_after_save_normalizes c3Ctx c3St ("foo\r\nbar".data) (by decide)

/-- C4: an `initialize(true)` whose underlying storage save fails emits
exactly the two events `started` then `failed`, rejects with the underlying
403 error, leaves the context (hence `isReady`, which stays false and can
never be resolved by this failed attempt) and the storage untouched. -/
theorem initDoc_failure (ctx : Context) (st : Storage)
    (hro : st.readonlyPaths.contains ctx.path = true) :
    (ctx.initDoc st true).events = [SaveState.started, SaveState.failed] ∧
    (ctx.initDoc st true).error = some forbiddenMsg ∧
    (ctx.initDoc st true).ctx = ctx ∧
    (ctx.initDoc st true).ctx.isReady = ctx.isReady ∧
    (ctx.initDoc st true).storage = st := by
  have hro2 : ctx.path ∈ st.readonlyPaths := by simpa using hro
  simp [Context.initDoc, Context.save, Storage.save, hro2]

/-- C4 witness: the theorem applied to the repository's `readonly.txt`
scenario. -/
theorem initDoc_failure_witness :
    (c4Ctx.initDoc c4St true).events = [SaveState.started, SaveState.failed] ∧
    (c4Ctx.initDoc c4St true).error = some forbiddenMsg ∧
    (c4Ctx.initDoc c4St true).ctx = c4Ctx ∧
    (c4Ctx.initDoc c4St true).ctx.isReady = c4Ctx.isReady ∧
    (c4Ctx.initDoc c4St true).storage = c4St := by
  exact initDoc_failure c4Ctx c4St (by decide)

/-- C5: a fresh context has no `contentsModel`; a successful
`initialize(true)` makes the context ready with `contentsModel.path` equal
to the context's path; a failed save leaves `contentsModel` untouched, so
the metadata is refreshed only by a successful remote operation. -/
theorem contentsModel_lifecycle (p : Str) (ctx : Context) (st : Storage)
    (manual : Bool) :
    (Context.create p).contentsModel = none ∧
    ((ctx.initDoc st true).error = none →
      (ctx.initDoc st true).ctx.isReady = true ∧
      (ctx.initDoc st true).ctx.contentsModel = some { path := ctx.path }) ∧
    ((ctx.save st manual).error ≠ none →
      (ctx.save st manual).ctx.contentsModel = ctx.contentsModel) := by
  refine ⟨rfl, ?_, ?_⟩
  · intro hok
    by_cases hro : ctx.path ∈ st.readonlyPaths
    · simp [Context.initDoc, Context.save, Storage.save, hro] at hok
    · simp [Context.initDoc, Context.save, Storage.save, hro]
  · intro herr
    by_cases hro : ctx.path ∈ st.readonlyPaths
    · simp [Context.save, Storage.save, hro]
    · simp [Context.save, Storage.save, hro] at herr

/-- C5 witness: the theorem applied to a fresh context that initializes
successfully and to a context whose save fails on a read-only path. -/
theorem contentsModel_lifecycle_witness :
    (Context.create ("a.txt".data)).contentsModel = none ∧
    ((c5CtxA.initDoc c5StA true).ctx.isReady = true ∧
      (c5CtxA.initDoc c5StA true).ctx.contentsModel = some { path := c5CtxA.path }) ∧
    (c5CtxB.save c5StB false).ctx.contentsModel = c5CtxB.contentsModel := by
  refine ⟨(contentsModel_lifecycle ("a.txt".data) c5CtxA c5StA false).1, ?_, ?_⟩
  · exact (contentsModel_lifecycle ("a.txt".data) c5CtxA c5StA false).2.1 (by decide)
  · exact (contentsModel_lifecycle ("a.txt".data) c5CtxB c5StB false).2.2 (by decide)

/-- C6 counterexample: a checkpoint is created while the Model holds `"bar"`
unsaved, so the gateway snapshots the stale remote content; after
`restoreCheckpoint` and `revert()` the Model holds the empty string, not the
`"bar"` the claim promises for content held by the Model at
checkpoint-creation time. -/
theorem restoreCheckpoint_revert_cex :
    c6Ctx2.modelContent = ("bar".data) ∧
    ((c6Ctx2.createCheckpoint c6Init.storage).bind (fun r =>
        (Context.restoreCheckpoint r.2.1 r.2.2 r.1).map (fun y =>
          (Context.revert y.1 y.2).ctx.modelContent))).toOption
      = some [] ∧
    ([] : Str) ≠ ("bar".data) := by decide

/-- C6 (amended): `restoreCheckpoint` mutates only remote state — the context
comes back unchanged — and for a checkpoint created when the remote content
was `c`, `restoreCheckpoint` followed by `revert()` leaves the Model's
serialized content equal to `c` with CRLF normalized to LF (hence equal to
the Model content at creation time when that content had been saved and is
CRLF-free), even if different content was saved in between. -/
theorem restoreCheckpoint_then_revert (ctx : Context) (st : Storage) (c d : Str)
    (hget : st.get ctx.path = some c)
    (hro : st.readonlyPaths.contains ctx.path = false) :
    ∃ st1, ctx.createCheckpoint st = .ok (st.nextCheckpointId, ctx, st1) ∧
      (Context.save (ctx.fromString d) st1 false).error = none ∧
      ∃ st3,
        Context.restoreCheckpoint (Context.save (ctx.fromString d) st1 false).ctx
            (Context.save (ctx.fromString d) st1 false).storage st.nextCheckpointId
          = .ok ((Context.save (ctx.fromString d) st1 false).ctx, st3) ∧
        (Context.revert (Context.save (ctx.fromString d) st1 false).ctx st3).ctx.modelContent
          = normalizeLineEndings c := by
  have hget2 : lookupEntry ctx.path st.files = some c := hget
  have hro2 : ctx.path ∉ st.readonlyPaths := by simpa using hro
  refine ⟨{ st with
      checkpoints := (ctx.path, { id := st.nextCheckpointId, content := c }) :: st.checkpoints,
      nextCheckpointId := st.nextCheckpointId + 1 }, ?_, ?_, ?_⟩
  · simp [Context.createCheckpoint, Storage.createCheckpoint, Storage.get, hget2, Except.map]
  · simp [Context.save, Context.fromString, Storage.save, hro2]
  · refine ⟨{ st with
        checkpoints := (ctx.path, { id := st.nextCheckpointId, content := c }) :: st.checkpoints,
        nextCheckpointId := st.nextCheckpointId + 1,
        files := putEntry ctx.path c
          (putEntry ctx.path (Context.saveContent (ctx.fromString d)) st.files) }, ?_, ?_⟩
    · simp [Context.save, Context.fromString, Storage.save, hro2,
        Context.restoreCheckpoint, Storage.restoreCheckpoint, Except.map]
    · simp [Context.save, Context.fromString, Storage.save, hro2, Context.revert,
        Storage.get, lookupEntry_putEntry]

/-- C6 witness: the amended theorem applied to the repository's
restore-checkpoint test flow — checkpoint saved content `"bar"`, save
`"foo"`, restore, revert, and the Model holds `"bar"` again. -/
theorem restoreCheckpoint_then_revert_witness :
    ∃ st1, c6WCtx.createCheckpoint c6WSt
        = .ok (c6WSt.nextCheckpointId, c6WCtx, st1) ∧
      (Context.save (c6WCtx.fromString ("foo".data)) st1 false).error = none ∧
      ∃ st3,
        Context.restoreCheckpoint
            (Context.save (c6WCtx.fromString ("foo".data)) st1 false).ctx
            (Context.save (c6WCtx.fromString ("foo".data)) st1 false).storage
            c6WSt.nextCheckpointId
          = .ok ((Context.save (c6WCtx.fromString ("foo".data)) st1 false).ctx, st3) ∧
        (Context.revert (Context.save (c6WCtx.fromString ("foo".data)) st1 false).ctx
            st3).ctx.modelContent
          = normalizeLineEndings ("bar".data) := by
  exact restoreCheckpoint_then_revert c6WCtx c6WSt ("bar".data) ("foo".data)
    (by decide) (by decide)

/-- C7: a `saveAs()` whose policy-resolved destination differs from the
current path and already exists, resolved with `cancel`, is a complete
no-op: the context (hence its path), the storage, the event log and the
error are all those of doing nothing. -/
theorem saveAs_cancel_noop (ctx : Context) (st : Storage) (newPath : Str)
    (hne : newPath ≠ ctx.path) (hex : (st.get newPath).isSome = true) :
    ctx.saveAs st newPath ConflictResolution.cancel
      = { ctx := ctx, storage := st, events := [], error := none } := by
  obtain ⟨v, hv⟩ := Option.isSome_iff_exists.mp hex
  simp [Context.saveAs, hne, hv]

/-- C7 witness: cancelling an overwrite of the existing `new.txt` leaves the
concrete context and storage unchanged. -/
theorem saveAs_cancel_noop_witness :
    c7Ctx.saveAs c7St ("new.txt".data) ConflictResolution.cancel
      = { ctx := c7Ctx, storage := c7St, events := [], error := none } := by
  exact saveAs_cancel_noop c7Ctx c7St ("new.txt".data) (by decide) (by decide)

/-- One provider call keeps the number of live lock tokens at most one. -/
theorem lock_step_preserves (p : DocProvider) (op : ProviderOp)
    (h : p.liveTokens.length ≤ 1) : (p.step op).liveTokens.length ≤ 1 := by
  cases op with
  | acquire =>
    cases hl : p.liveTokens with
    | nil => simp [DocProvider.step, DocProvider.acquireLock, hl]
    | cons t rest =>
      have h3 : (t :: rest).length ≤ 1 := hl ▸ h
      have h4 : rest = [] := List.length_eq_zero.mp (by simpa using h3)
      simp [DocProvider.step, DocProvider.acquireLock, hl, h4]
  | release t =>
    simp only [DocProvider.step, DocProvider.releaseLock]
    exact le_trans (List.Sublist.length_le (List.erase_sublist t p.liveTokens)) h

/-- C8: along every sequence of `acquireLock`/`releaseLock` calls a provider
started fresh never has more than one live token, and whenever a token is
outstanding and unreleased a further `acquireLock` grants nothing — a second
call before release never yields two simultaneously live tokens. -/
theorem acquireLock_single_outstanding :
    (∀ ops : List ProviderOp,
      (DocProvider.run DocProvider.init ops).liveTokens.length ≤ 1) ∧
    (∀ p : DocProvider, p.liveTokens ≠ [] → p.acquireLock = none) := by
  constructor
  · intro ops
    have h : ∀ (l : List ProviderOp) (p : DocProvider), p.liveTokens.length ≤ 1 →
        (DocProvider.run p l).liveTokens.length ≤ 1 := by
      intro l
      induction l with
      | nil => intro p hp; simpa [DocProvider.run] using hp
      | cons op rest ih =>
        intro p hp
        have hstep := lock_step_preserves p op hp
        simpa [DocProvider.run] using ih (p.step op) hstep
    exact h ops DocProvider.init (by simp [DocProvider.init])
  · intro p hne
    cases hl : p.liveTokens with
    | nil => exact absurd hl hne
    | cons t rest => simp [DocProvider.acquireLock, hl]

/-- C8 witness: a provider with the live token `5` grants nothing on a second
`acquireLock`. -/
theorem acquireLock_single_outstanding_witness :
    DocProvider.acquireLock { liveTokens := [5], nextLock := 6 } = none := by
  exact acquireLock_single_outstanding.2 { liveTokens := [5], nextLock := 6 } (by decide)

/-- Joining two or more segments with a dot separator never yields the empty
string. -/
theorem joinSep_cons_cons_ne_nil (x y : Str) (t : List Str) :
    joinSep '.' (x :: y :: t) ≠ [] := by
  simp [joinSep]

/-- Unfolding the compound-extension chain by one segment. -/
theorem extChain_cons (p : Str) (rest : List Str) :
    extChain (p :: rest) =
      (if 1 < ('.' :: joinSep '.' (p :: rest)).length
        then ['.' :: joinSep '.' (p :: rest)] else []) ++ extChain rest := by
  have hcomp : ((fun i => '.' :: joinSep '.' ((p :: rest).drop i)) ∘ Nat.succ)
      = fun i => '.' :: joinSep '.' (rest.drop i) := by
    funext i
    simp [Function.comp, List.drop_succ_cons]
  simp only [extChain, List.length_cons, List.range_succ_eq_map, List.map_cons,
    List.drop_zero, List.map_map, hcomp, List.filter_cons]
  by_cases hc : 0 < (joinSep '.' (p :: rest)).length
  · simp [hc]
  · simp [hc]

/-- The source's extension `while` loop computes, for each compound extension
in the chain from longest to shortest, the first registered file type
listing it. -/
theorem extMatchLoop_eq (fts : List IFileType) (parts : List Str) :
    extMatchLoop fts parts = (extChain parts).filterMap
      (fun e => fts.find? (fun ft => ft.extensions.contains e)) := by
  induction parts with
  | nil => simp [extMatchLoop, extChain]
  | cons p rest ih =>
    rw [extChain_cons]
    by_cases h : 1 < ('.' :: joinSep '.' (p :: rest)).length
    · rw [if_pos h]
      simp only [extMatchLoop, if_pos h, List.singleton_append,
        List.filterMap_cons, ih]
      cases hfe : fts.find?
          (fun ft => ft.extensions.contains ('.' :: joinSep '.' (p :: rest))) with
      | none => simp
      | some ft => simp
    · rw [if_neg h]
      cases rest with
      | cons q t =>
        exfalso
        have hlen : (joinSep '.' (p :: q :: t)).length = 0 := by
          simp only [List.length_cons] at h
          omega
        exact joinSep_cons_cons_ne_nil p q t (List.length_eq_zero.mp hlen)
      | nil =>
        have hp : p = [] := by
          have hl : ('.' :: joinSep '.' [p]).length = p.length + 1 := by
            simp [joinSep]
          rw [hl] at h
          exact List.length_eq_zero.mp (by omega)
        subst hp
        simp [extMatchLoop, extChain, joinSep]

/-- C9: for every registry and path, `getFileTypesForPath` returns exactly
the first registered file type whose pattern matches the basename (if any)
followed by, for each compound extension of the basename from longest to
shortest, the first registered file type listing that extension — and hence
the empty list when nothing matches. -/
theorem getFileTypesForPath_ordering (fts : List IFileType) (path : Str) :
    getFileTypesForPath fts path = getFileTypesForPathSpec fts path := by
  simp only [getFileTypesForPath, getFileTypesForPathSpec]
  rw [extMatchLoop_eq]

/-- C10: `addWidgetFactory` throws exactly when the lowercased factory name
is empty or `default`; for a non-throwing name already registered, it
returns the state unchanged, emits no event, and hands back a disposable
whose disposal is a no-op. -/
theorem addWidgetFactory_contract (st : RegistryState) (f : WidgetFactoryOpts) :
    ((¬ (toLowerStr f.name = [] ∨ toLowerStr f.name = defaultStr)) →
      (lookupEntry (toLowerStr f.name) st.widgetFactories).isSome = true →
      addWidgetFactory st f = .ok (st, [], fun s => (s, []))) ∧
    ((∃ e, addWidgetFactory st f = .error e) ↔
      (toLowerStr f.name = [] ∨ toLowerStr f.name = defaultStr)) := by
  constructor
  · intro hname hdup
    simp [addWidgetFactory, hname, hdup]
  · constructor
    · rintro ⟨e, he⟩
      by_contra hc
      simp only [addWidgetFactory, if_neg hc] at he
      by_cases hdup : (lookupEntry (toLowerStr f.name) st.widgetFactories).isSome
      · simp [hdup] at he
      · simp [hdup] at he
    · intro hc
      exact ⟨invalidFactoryNameMsg, by simp [addWidgetFactory, hc]⟩

/-- C10 witness: re-registering `Foo` over the existing `foo` entry is a
no-op with a no-op disposable. -/
theorem addWidgetFactory_contract_witness :
    addWidgetFactory c10St c10Factory = .ok (c10St, [], fun s => (s, [])) := by
  exact (addWidgetFactory_contract c10St c10Factory).1 (by decide) (by decide)
